import Mathlib

/-!
Shallow embedding of the claude-super-dispatch core
(src/lib/tmux_orchestrator.py and src/lib/agent_messenger.py),
with theorems checking the specification's claims against it.

Modelling conventions:
* Python `datetime` values stored in `Session.started_at` are modelled as
  integers counting microseconds (the resolution of `datetime`), since the
  code only subtracts them and compares against `timedelta(minutes=m)`.
* `QueuedTask.queued_at` is an ISO-format string in the code and is compared
  as a string by `sort_queue`; it stays a `String` here, compared with the
  lexicographic order (the same order Python uses on strings).
* Sources of nondeterminism (the current time, the uuid hex used in message
  identifiers) are passed to the embedded operations as explicit arguments.
* Persistence (`_load_state` / `_save_state`) is modelled where a claim needs
  it: a shared file holding an `OrchState`, and processes that keep their own
  in-memory copy, exactly as `TmuxOrchestrator.__init__` / `_save_state` do.
-/

namespace SuperDispatch

/-- The `Session` dataclass of tmux_orchestrator.py.
Fields in source order: session_id, task_id, agent_type, priority,
started_at (a datetime, modelled in microseconds), status. -/
structure Session where
  session_id : String
  task_id : String
  agent_type : String
  priority : Int
  started_at : Int
  status : String
deriving DecidableEq, Repr

/-- The `QueuedTask` dataclass of tmux_orchestrator.py.
Fields in source order: task_id, agent_type, priority, queued_at
(an ISO string), prompt. -/
structure QueuedTask where
  task_id : String
  agent_type : String
  priority : Int
  queued_at : String
  prompt : String
deriving DecidableEq, Repr

/-- The in-memory state of a `TmuxOrchestrator` instance: the fields set by
`_load_state` (`self.sessions`, `self.queue`, `self.max_concurrent`,
`self.timeout_minutes`). -/
structure OrchState where
  sessions : List Session
  queue : List QueuedTask
  max_concurrent : Int
  timeout_minutes : Int
deriving DecidableEq, Repr

/-- The defaults `_load_state` installs when the state file is absent:
empty sessions and queue, `max_concurrent = 5`, `timeout_minutes = 10`. -/
def initialState : OrchState :=
  ⟨[], [], 5, 10⟩

/-- The strict part of the sort key order used by `sort_queue`:
Python compares the tuples `(x.priority, x.queued_at)` lexicographically. -/
def keyLt (a b : QueuedTask) : Prop :=
  a.priority < b.priority ∨ (a.priority = b.priority ∧ a.queued_at < b.queued_at)

instance (a b : QueuedTask) : Decidable (keyLt a b) := by
  unfold keyLt; infer_instance

/-- The non-strict sort key order on `(priority, queued_at)` tuples. -/
def keyLe (a b : QueuedTask) : Prop :=
  a.priority < b.priority ∨ (a.priority = b.priority ∧ a.queued_at ≤ b.queued_at)

instance (a b : QueuedTask) : Decidable (keyLe a b) := by
  unfold keyLe; infer_instance

/-- One insertion step of a stable sort by `(priority, queued_at)`: the new
element goes after every element strictly smaller in key, and before the
first element whose key is not strictly smaller (so earlier list elements
with an equal key stay in front, as with Python's stable `list.sort`). -/
def sortInsert (x : QueuedTask) : List QueuedTask → List QueuedTask
  | [] => [x]
  | y :: ys => if keyLt y x then y :: sortInsert x ys else x :: y :: ys

/-- `sort_queue`: sorts the queue by the key `(x.priority, x.queued_at)`,
stably (Python's `list.sort` is stable). -/
def sortQueue : List QueuedTask → List QueuedTask
  | [] => []
  | x :: xs => sortInsert x (sortQueue xs)

/-- `can_spawn`: `len(self.sessions) < self.max_concurrent`. -/
def can_spawn (st : OrchState) : Bool :=
  decide ((st.sessions.length : Int) < st.max_concurrent)

/-- `add_session`: builds a `Session` with `session_id = "agent-" + task_id`,
`status = "running"` and the current time, appends it and saves.  The current
time `now` is an explicit argument.  Returns the session and the new state. -/
def add_session (st : OrchState) (task_id agent_type : String) (priority : Int)
    (now : Int) : Session × OrchState :=
  let s : Session := ⟨"agent-" ++ task_id, task_id, agent_type, priority, now, "running"⟩
  (s, { st with sessions := st.sessions ++ [s] })

/-- `remove_session`: filters out every session with the given id; reports
whether anything was removed (and saves only in that case). -/
def remove_session (st : OrchState) (session_id : String) : Bool × OrchState :=
  let kept := st.sessions.filter (fun s => s.session_id ≠ session_id)
  if kept.length < st.sessions.length then
    (true, { st with sessions := kept })
  else
    (false, st)

/-- `cleanup_session`: the external `tmux kill-session` call is best-effort
(any failure is swallowed) and touches no registry state, so its bookkeeping
effect is exactly `remove_session`. -/
def cleanup_session (st : OrchState) (session_id : String) : Bool × OrchState :=
  remove_session st session_id

/-- `queue_task`: builds a `QueuedTask` with the given priority and the
current time, appends it, re-sorts the whole queue and saves. -/
def queue_task (st : OrchState) (task_id agent_type : String) (priority : Int)
    (now prompt : String) : QueuedTask × OrchState :=
  let task : QueuedTask := ⟨task_id, agent_type, priority, now, prompt⟩
  (task, { st with queue := sortQueue (st.queue ++ [task]) })

/-- `dequeue_next`: pops the head of the queue, or returns nothing when the
queue is empty (saving only on a successful removal). -/
def dequeue_next (st : OrchState) : Option QueuedTask × OrchState :=
  match st.queue with
  | [] => (none, st)
  | t :: rest => (some t, { st with queue := rest })

/-- `preempt_queue`: builds a `QueuedTask` with priority forced to 0 and
inserts it at index 0, without re-sorting, then saves. -/
def preempt_queue (st : OrchState) (task_id agent_type : String)
    (now prompt : String) : QueuedTask × OrchState :=
  let task : QueuedTask := ⟨task_id, agent_type, 0, now, prompt⟩
  (task, { st with queue := task :: st.queue })

/-- `timedelta(minutes=m)` expressed in microseconds. -/
def minutesToMicros (m : Int) : Int :=
  m * 60000000

/-- `get_timed_out_sessions`: keeps each session with
`now - started > timedelta(minutes=self.timeout_minutes)` (strictly).
Pure: it returns a list and leaves the state untouched. -/
def get_timed_out_sessions (st : OrchState) (now : Int) : List Session :=
  st.sessions.filter (fun s => minutesToMicros st.timeout_minutes < now - s.started_at)

/-! ### Persistence and processes (tmux_orchestrator.py)

`_load_state` runs only in `__init__`; every mutating method then works on
the in-memory fields and `_save_state` overwrites the whole shared file with
them.  A process is modelled by its in-memory `OrchState`; the shared
`sessions/active.json` file by an `Option OrchState` (`none` = absent). -/

/-- `TmuxOrchestrator.__init__` / `_load_state`: load the file into memory,
or install the defaults and persist them when the file is absent.
Returns the new in-memory state and the file afterwards. -/
def orch_init (file : Option OrchState) : OrchState × Option OrchState :=
  match file with
  | some d => (d, some d)
  | none => (initialState, some initialState)

/-- `_save_state`: serializes the calling process's in-memory state and
writes it over the shared file, regardless of what the file holds by then. -/
def save_state (mem : OrchState) : Option OrchState :=
  some mem

/-- `queue_task` as one process's step against the shared file: the method
runs on the process's own in-memory state (it does not re-load the file) and
then saves.  Returns (task, new in-memory state, new file). -/
def proc_queue_task (mem : OrchState) (_file : Option OrchState)
    (task_id agent_type : String) (priority : Int) (now prompt : String) :
    QueuedTask × OrchState × Option OrchState :=
  let (t, mem1) := queue_task mem task_id agent_type priority now prompt
  (t, mem1, save_state mem1)

/-- `dequeue_next` as one process's step against the shared file: runs on the
process's own in-memory state and saves only when a task was removed. -/
def proc_dequeue_next (mem : OrchState) (file : Option OrchState) :
    Option QueuedTask × OrchState × Option OrchState :=
  let (t, mem1) := dequeue_next mem
  match t with
  | none => (none, mem1, file)
  | some _ => (t, mem1, save_state mem1)

/-! ### Byte-level write mechanism (claim C2)

`_save_state` (tmux_orchestrator.py lines 64-73) and the write half of
`mark_read` (agent_messenger.py lines 148-149) both run
`with open(path, "w") as f: json.dump(data, f)`.  `open(path, "w")`
truncates the target in place at once; the dump then fills it.  That
mechanism, and the atomic-replace mechanism the spec describes, are both
expressed as lists of elementary file operations so they can be compared
and interrupted at any point. -/

/-- A plain filesystem: path to contents, as an association list. -/
abbrev Fs := List (String × String)

/-- Look up a file's contents. -/
def fsGet (fs : Fs) (path : String) : Option String :=
  (fs.find? (fun e => e.fst == path)).map Prod.snd

/-- Create or overwrite a file. -/
def fsSet (fs : Fs) (path content : String) : Fs :=
  if fs.any (fun e => e.fst == path) then
    fs.map (fun e => if e.fst == path then (e.fst, content) else e)
  else
    fs ++ [(path, content)]

/-- Delete a file. -/
def fsRemove (fs : Fs) (path : String) : Fs :=
  fs.filter (fun e => e.fst ≠ path)

/-- One elementary file-write action. -/
inductive FsOp where
  /-- `open(path, "w")`: creates the file, or empties it in place. -/
  | truncate (path : String)
  /-- writing the full serialized document into the (open) file. -/
  | writeAll (path : String) (content : String)
  /-- an atomic rename of `path` onto `dest` (`os.replace`). -/
  | rename (path : String) (dest : String)
deriving DecidableEq, Repr

/-- Effect of one elementary action on the filesystem. -/
def applyOp (fs : Fs) : FsOp → Fs
  | .truncate p => fsSet fs p ""
  | .writeAll p c => fsSet fs p c
  | .rename p dest =>
    match fsGet fs p with
    | none => fs
    | some c => fsSet (fsRemove fs p) dest c

/-- Effect of a sequence of actions, first to last. -/
def applyOps (fs : Fs) (ops : List FsOp) : Fs :=
  ops.foldl applyOp fs

/-- The write mechanism `_save_state` and `mark_read` actually use:
`with open(path, "w") as f: json.dump(data, f)` — truncate the target in
place, then write the new serialization into it. -/
def pyTruncatingWrite (path content : String) : List FsOp :=
  [.truncate path, .writeAll path content]

/-- Modelled from the spec: the write-to-temporary-file-then-atomic-rename
discipline claim C2 describes (no such helper exists in the repository's
code; this definition follows the spec's words, for comparison). -/
def atomicReplaceWrite (path tmp content : String) : List FsOp :=
  [.writeAll tmp content, .rename tmp path]

/-! ### Mailbox / message bus (agent_messenger.py) -/

/-- The `Message` dataclass of agent_messenger.py.  Fields in source order:
id, from_agent, to_agent, msg_type, subject, content, timestamp, reply_to,
read. -/
structure Message where
  id : String
  from_agent : String
  to_agent : String
  msg_type : String
  subject : String
  content : String
  timestamp : String
  reply_to : Option String
  read : Bool
deriving DecidableEq, Repr

/-- One mailbox directory: its `*.json` files as (filename, parsed contents)
pairs, in directory order. -/
abbrev Folder := List (String × Message)

/-- The messenger's filesystem: the directories under `messages/inbox/` and
`messages/outbox/`, each keyed by agent id, in `iterdir` order. -/
structure MsgStore where
  inboxes : List (String × Folder)
  outboxes : List (String × Folder)
deriving DecidableEq, Repr

/-- Whether a directory of the given name exists. -/
def hasDir (dirs : List (String × Folder)) (name : String) : Bool :=
  dirs.any (fun e => e.fst == name)

/-- `mkdir(exist_ok=True)`: create the directory unless it exists. -/
def ensureDir (dirs : List (String × Folder)) (name : String) :
    List (String × Folder) :=
  if hasDir dirs name then dirs else dirs ++ [(name, [])]

/-- The contents of the named directory (empty when absent). -/
def getDir (dirs : List (String × Folder)) (name : String) : Folder :=
  ((dirs.find? (fun e => e.fst == name)).map Prod.snd).getD []

/-- Replace the contents of the named directory by applying `g`. -/
def updateDir (dirs : List (String × Folder)) (name : String)
    (g : Folder → Folder) : List (String × Folder) :=
  dirs.map (fun e => if e.fst == name then (e.fst, g e.snd) else e)

/-- The file name `_write_message` uses: `f"{msg.id}.json"`. -/
def msgFileName (m : Message) : String :=
  m.id ++ ".json"

/-- Whether the folder holds a file of the given name (`Path.exists`). -/
def hasFile (folder : Folder) (name : String) : Bool :=
  folder.any (fun e => e.fst == name)

/-- `_write_message`: write the message into `folder / f"{msg.id}.json"`,
overwriting a file of that name if one exists. -/
def writeMessage (folder : Folder) (msg : Message) : Folder :=
  if hasFile folder (msgFileName msg) then
    folder.map (fun e => if e.fst == msgFileName msg then (e.fst, msg) else e)
  else
    folder ++ [(msgFileName msg, msg)]

/-- `send`: builds a `Message` with id `f"msg-{uuid4().hex[:8]}"` (the fresh
hex is an explicit argument), the current time and `read = False`; if
`to_agent == "all"` writes a copy into every existing inbox directory,
otherwise into the one named inbox (creating it if absent); then writes a
copy into the sender's outbox (creating it if absent). -/
def send (store : MsgStore) (from_agent to_agent msg_type subject content : String)
    (reply_to : Option String) (fresh now : String) : Message × MsgStore :=
  let msg : Message :=
    ⟨"msg-" ++ fresh, from_agent, to_agent, msg_type, subject, content, now,
      reply_to, false⟩
  let inboxes1 :=
    if to_agent == "all" then
      store.inboxes.map (fun e => (e.fst, writeMessage e.snd msg))
    else
      updateDir (ensureDir store.inboxes to_agent) to_agent
        (fun f => writeMessage f msg)
  let outboxes1 :=
    updateDir (ensureDir store.outboxes from_agent) from_agent
      (fun f => writeMessage f msg)
  (msg, ⟨inboxes1, outboxes1⟩)

/-- One insertion step of sorting a folder listing by filename
(`sorted(inbox.glob("*.json"))`; filenames in one directory are distinct). -/
def fileInsert (e : String × Message) : Folder → Folder
  | [] => [e]
  | f :: fs => if f.fst < e.fst then f :: fileInsert e fs else e :: f :: fs

/-- Sort a folder listing by filename. -/
def sortFiles : Folder → Folder
  | [] => []
  | e :: es => fileInsert e (sortFiles es)

/-- `receive`: ensure the agent's inbox directory exists, list its files in
sorted filename order, and keep each message unless `unread_only` and the
message is already read.  Returns the messages and the store (whose only
change is the possibly-created inbox directory). -/
def receive (store : MsgStore) (agent_id : String) (unread_only : Bool) :
    List Message × MsgStore :=
  let inboxes1 := ensureDir store.inboxes agent_id
  let folder := getDir inboxes1 agent_id
  let msgs :=
    ((sortFiles folder).filter (fun e => !(unread_only && e.snd.read))).map
      Prod.snd
  (msgs, ⟨inboxes1, store.outboxes⟩)

/-- The read-modify-write `mark_read` performs on one message file: the same
record with `read` set to `True`. -/
def setRead (m : Message) : Message :=
  ⟨m.id, m.from_agent, m.to_agent, m.msg_type, m.subject, m.content,
    m.timestamp, m.reply_to, true⟩

/-- Rewriting the one file named `name` inside a folder listing: that file's
message gets `read = True`, every other file is untouched. -/
def markEntry (name : String) (e : String × Message) : String × Message :=
  if e.fst == name then (e.fst, setRead e.snd) else e

/-- `mark_read`: ensure the agent's inbox directory exists; if
`{msg_id}.json` exists there, rewrite it with `read = True` and return true,
otherwise return false. -/
def mark_read (store : MsgStore) (agent_id msg_id : String) : Bool × MsgStore :=
  let inboxes1 := ensureDir store.inboxes agent_id
  let folder := getDir inboxes1 agent_id
  let name := msg_id ++ ".json"
  if hasFile folder name then
    (true,
      ⟨updateDir inboxes1 agent_id (fun f => f.map (markEntry name)),
        store.outboxes⟩)
  else
    (false, ⟨inboxes1, store.outboxes⟩)

/-! ### Queue ordering lemmas -/

theorem keyLe_of_keyLt {a b : QueuedTask} (h : keyLt a b) : keyLe a b := by
  rcases h with h | ⟨e, h⟩
  · exact Or.inl h
  · exact Or.inr ⟨e, le_of_lt h⟩

theorem keyLe_of_not_keyLt {a b : QueuedTask} (h : ¬ keyLt b a) : keyLe a b := by
  unfold keyLt at h
  push_neg at h
  obtain ⟨h1, h2⟩ := h
  rcases eq_or_lt_of_le h1 with e | l
  · exact Or.inr ⟨e, h2 e.symm⟩
  · exact Or.inl l

theorem keyLe_trans {a b c : QueuedTask} (hab : keyLe a b) (hbc : keyLe b c) :
    keyLe a c := by
  rcases hab with h | ⟨e1, t1⟩ <;> rcases hbc with h' | ⟨e2, t2⟩
  · exact Or.inl (lt_trans h h')
  · exact Or.inl (e2 ▸ h)
  · exact Or.inl (e1 ▸ h')
  · exact Or.inr ⟨e1.trans e2, le_trans t1 t2⟩

theorem mem_sortInsert {x a : QueuedTask} {l : List QueuedTask} :
    a ∈ sortInsert x l ↔ a = x ∨ a ∈ l := by
  induction l with
  | nil => simp [sortInsert]
  | cons y ys ih =>
    rw [sortInsert]
    split
    · simp only [List.mem_cons, ih]
      tauto
    · simp only [List.mem_cons]

theorem sorted_sortInsert {x : QueuedTask} {l : List QueuedTask}
    (h : List.Pairwise keyLe l) : List.Pairwise keyLe (sortInsert x l) := by
  induction l with
  | nil => simp [sortInsert]
  | cons y ys ih =>
    rw [sortInsert]
    rcases List.pairwise_cons.mp h with ⟨hy, hys⟩
    by_cases hlt : keyLt y x
    · rw [if_pos hlt]
      refine List.pairwise_cons.mpr ⟨?_, ih hys⟩
      intro z hz
      rcases mem_sortInsert.mp hz with rfl | hz'
      · exact keyLe_of_keyLt hlt
      · exact hy z hz'
    · rw [if_neg hlt]
      refine List.pairwise_cons.mpr ⟨?_, h⟩
      intro z hz
      rcases List.mem_cons.mp hz with rfl | hz'
      · exact keyLe_of_not_keyLt hlt
      · exact keyLe_trans (keyLe_of_not_keyLt hlt) (hy z hz')

theorem sorted_sortQueue : ∀ l : List QueuedTask, List.Pairwise keyLe (sortQueue l)
  | [] => by simp [sortQueue]
  | x :: xs => by
    rw [sortQueue]
    exact sorted_sortInsert (sorted_sortQueue xs)

/-! ### Draining the queue -/

/-- `drainAux st n`: call `dequeue_next` up to `n` times, stopping at an
empty queue, collecting the returned tasks in order. -/
def drainAux : OrchState → Nat → List QueuedTask
  | _, 0 => []
  | st, Nat.succ n =>
    match dequeue_next st with
    | (none, _) => []
    | (some t, st1) => t :: drainAux st1 n

/-- The tasks returned by calling `dequeue_next` repeatedly until the queue
is empty (the queue length bounds the number of calls needed). -/
def drain (st : OrchState) : List QueuedTask :=
  drainAux st st.queue.length

theorem drainAux_eq : ∀ (n : Nat) (st : OrchState), drainAux st n = st.queue.take n := by
  intro n
  induction n with
  | zero => intro st; simp [drainAux]
  | succ n ih =>
    intro st
    rw [drainAux]
    cases hq : st.queue with
    | nil => simp [dequeue_next, hq]
    | cons t rest => simp [dequeue_next, hq, ih]

theorem drain_eq (st : OrchState) : drain st = st.queue := by
  rw [drain, drainAux_eq, List.take_length]

/-- The arguments of one `queue_task` call. -/
structure QueueCall where
  task_id : String
  agent_type : String
  priority : Int
  now : String
  prompt : String

/-- Perform a sequence of `queue_task` calls, in order. -/
def runQueueTasks (st : OrchState) : List QueueCall → OrchState
  | [] => st
  | c :: cs =>
    runQueueTasks (queue_task st c.task_id c.agent_type c.priority c.now c.prompt).snd cs

theorem runQueueTasks_sorted (cs : List QueueCall) :
    ∀ st : OrchState, List.Pairwise keyLe st.queue →
      List.Pairwise keyLe (runQueueTasks st cs).queue := by
  induction cs with
  | nil => intro st h; simpa [runQueueTasks] using h
  | cons c cs ih =>
    intro st _
    rw [runQueueTasks]
    apply ih
    simp only [queue_task]
    exact sorted_sortQueue _

/-- C3: for every sequence of `queue_task` calls (arbitrary priorities and
enqueue timestamps), the sequence of tasks returned by repeatedly calling
`dequeue_next` until the queue is empty is non-decreasing in priority, and
among tasks of equal priority the one with the earlier `queued_at` comes
first. -/
theorem dequeue_sequence_priority_ordered (calls : List QueueCall) :
    List.Pairwise
      (fun a b : QueuedTask =>
        a.priority ≤ b.priority ∧ (a.priority = b.priority → a.queued_at ≤ b.queued_at))
      (drain (runQueueTasks initialState calls)) := by
  have h := runQueueTasks_sorted calls initialState (by simp [initialState])
  rw [drain_eq]
  refine h.imp ?_
  intro a b hab
  rcases hab with hlt | ⟨heq, hle⟩
  · exact ⟨le_of_lt hlt, fun he => absurd (he ▸ hlt) (lt_irrefl _)⟩
  · exact ⟨le_of_eq heq, fun _ => hle⟩

/-- C4: `preempt_queue` builds a priority-0 task, puts it at the queue head,
and an immediately following `dequeue_next` returns exactly that task, for
every starting state; and in the concrete scenario
queue_task t1 (priority 2), queue_task t2 (priority 1), preempt_queue t3,
three dequeues return t3, then t2, then t1. -/
theorem preempt_then_dequeue_returns_preempted :
    (∀ (st : OrchState) (tid ag now pr : String),
        (preempt_queue st tid ag now pr).fst.priority = 0
        ∧ (preempt_queue st tid ag now pr).snd.queue =
            (preempt_queue st tid ag now pr).fst :: st.queue
        ∧ (dequeue_next (preempt_queue st tid ag now pr).snd).fst =
            some (preempt_queue st tid ag now pr).fst)
    ∧ (drain (preempt_queue (queue_task (queue_task initialState
            "t1" "coder" 2 "2025-01-01T10:00:00" "").snd
            "t2" "coder" 1 "2025-01-01T10:00:01" "").snd
            "t3" "reviewer" "2025-01-01T10:00:02" "").snd).map QueuedTask.task_id
        = ["t3", "t2", "t1"] := by
  constructor
  · intro st tid ag now pr
    exact ⟨rfl, rfl, rfl⟩
  · decide

/-! ### Timeout detection (claim C9) -/

/-- C9: `get_timed_out_sessions` returns exactly the sessions whose elapsed
time `now - started_at` strictly exceeds `timeout_minutes` (it is a pure
function of the state and `now`); in particular a session started
`timeout_minutes + 1` minutes ago is included and one started
`timeout_minutes - 1` minutes ago is not. -/
theorem timed_out_sessions_exact :
    ∀ (st : OrchState) (now : Int) (s : Session),
      (s ∈ get_timed_out_sessions st now ↔
        s ∈ st.sessions ∧ minutesToMicros st.timeout_minutes < now - s.started_at)
      ∧ (s ∈ st.sessions →
          (s.started_at = now - minutesToMicros (st.timeout_minutes + 1) →
            s ∈ get_timed_out_sessions st now)
          ∧ (s.started_at = now - minutesToMicros (st.timeout_minutes - 1) →
            s ∉ get_timed_out_sessions st now)) := by
  intro st now s
  have hmem : s ∈ get_timed_out_sessions st now ↔
      s ∈ st.sessions ∧ minutesToMicros st.timeout_minutes < now - s.started_at := by
    simp [get_timed_out_sessions, List.mem_filter]
  refine ⟨hmem, fun hs => ⟨?_, ?_⟩⟩
  · intro he
    rw [hmem]
    refine ⟨hs, ?_⟩
    rw [he]
    simp only [minutesToMicros]
    omega
  · intro he hcon
    rw [hmem] at hcon
    obtain ⟨-, hlt⟩ := hcon
    rw [he] at hlt
    simp only [minutesToMicros] at hlt
    omega

/-- A registry with one session, started at time 0, default limits. -/
def oneSessionState : OrchState :=
  ⟨[⟨"agent-t", "t", "coder", 2, 0, "running"⟩], [], 5, 10⟩

theorem timed_out_sessions_exact_witness :
    (⟨"agent-t", "t", "coder", 2, 0, "running"⟩ : Session) ∈
        get_timed_out_sessions oneSessionState 660000000
    ∧ (⟨"agent-t", "t", "coder", 2, 0, "running"⟩ : Session) ∉
        get_timed_out_sessions oneSessionState 540000000 :=
  ⟨((timed_out_sessions_exact oneSessionState 660000000
        ⟨"agent-t", "t", "coder", 2, 0, "running"⟩).2 (by decide)).1 (by decide),
    ((timed_out_sessions_exact oneSessionState 540000000
        ⟨"agent-t", "t", "coder", 2, 0, "running"⟩).2 (by decide)).2 (by decide)⟩

/-! ### Capacity check (claim C6) -/

/-- Call `add_session` once per listed task id (no `can_spawn` gating:
the code itself never checks). -/
def addMany (st : OrchState) (tids : List String) : OrchState :=
  tids.foldl (fun s tid => (add_session s tid "coder" 2 0).snd) st

/-- Five sessions against the default limit of 5. -/
def stFive : OrchState :=
  addMany initialState ["t1", "t2", "t3", "t4", "t5"]

/-- Six sessions against the default limit of 5 (the code lets `add_session`
run ungated past the limit). -/
def stSix : OrchState :=
  addMany initialState ["t1", "t2", "t3", "t4", "t5", "t6"]

/-- C6 counterexample: with six stored sessions and `max_concurrent = 5`,
`can_spawn` is false while the session count differs from `max_concurrent`,
so "can_spawn() returns false if and only if the number of stored sessions
equals max_concurrent" fails at this state. -/
theorem can_spawn_iff_eq_counterexample :
    ¬ (can_spawn stSix = false ↔ (stSix.sessions.length : Int) = stSix.max_concurrent) := by
  decide

/-- C6 amended: `can_spawn` is true iff the session count is strictly below
`max_concurrent` (equivalently, false iff the count is at least
`max_concurrent`); the "false iff count equals max_concurrent" reading holds
under the invariant that the count never exceeds `max_concurrent`. -/
theorem can_spawn_characterization :
    ∀ st : OrchState,
      (can_spawn st = true ↔ (st.sessions.length : Int) < st.max_concurrent)
      ∧ (can_spawn st = false ↔ st.max_concurrent ≤ (st.sessions.length : Int))
      ∧ ((st.sessions.length : Int) ≤ st.max_concurrent →
          (can_spawn st = false ↔ (st.sessions.length : Int) = st.max_concurrent)) := by
  intro st
  have h1 : can_spawn st = true ↔ (st.sessions.length : Int) < st.max_concurrent := by
    simp [can_spawn]
  have h2 : can_spawn st = false ↔ st.max_concurrent ≤ (st.sessions.length : Int) := by
    simp [can_spawn, not_lt]
  refine ⟨h1, h2, fun hle => ?_⟩
  rw [h2]
  omega

theorem can_spawn_characterization_witness :
    can_spawn stFive = false ↔ (stFive.sessions.length : Int) = stFive.max_concurrent :=
  (can_spawn_characterization stFive).2.2 (by decide)

/-! ### Registry invariants (claim C5) -/

/-- The registry states reachable from the defaults by `add_session` (gated
on `can_spawn`, as the claim assumes callers do), `remove_session` and
`cleanup_session`. -/
inductive ReachGated : OrchState → Prop where
  | init : ReachGated initialState
  | add (st : OrchState) (tid ag : String) (p now : Int) :
      ReachGated st → can_spawn st = true →
      ReachGated (add_session st tid ag p now).snd
  | remove (st : OrchState) (sid : String) :
      ReachGated st → ReachGated (remove_session st sid).snd
  | cleanup (st : OrchState) (sid : String) :
      ReachGated st → ReachGated (cleanup_session st sid).snd

/-- As `ReachGated`, but additionally each `add_session` call uses a task id
whose derived session id is not currently active (the extra proviso the
counterexample forces). -/
inductive ReachGatedFresh : OrchState → Prop where
  | init : ReachGatedFresh initialState
  | add (st : OrchState) (tid ag : String) (p now : Int) :
      ReachGatedFresh st → can_spawn st = true →
      ("agent-" ++ tid) ∉ st.sessions.map Session.session_id →
      ReachGatedFresh (add_session st tid ag p now).snd
  | remove (st : OrchState) (sid : String) :
      ReachGatedFresh st → ReachGatedFresh (remove_session st sid).snd
  | cleanup (st : OrchState) (sid : String) :
      ReachGatedFresh st → ReachGatedFresh (cleanup_session st sid).snd

theorem remove_session_shrinks (st : OrchState) (sid : String) :
    (remove_session st sid).snd.sessions.length ≤ st.sessions.length
    ∧ (remove_session st sid).snd.max_concurrent = st.max_concurrent
    ∧ ((remove_session st sid).snd.sessions.map Session.session_id).Sublist
        (st.sessions.map Session.session_id) := by
  simp only [remove_session]
  split
  · exact ⟨List.length_filter_le _ _, rfl, (List.filter_sublist _).map _⟩
  · exact ⟨le_refl _, rfl, List.Sublist.refl _⟩

/-- The state after calling `add_session "t1"` twice (both calls gated: the
registry is far below its limit), producing two sessions whose session
identifier is `"agent-t1"`. -/
def stDup : OrchState :=
  (add_session (add_session initialState "t1" "coder" 2 0).snd "t1" "coder" 2 0).snd

/-- C5 counterexample: a state reachable from the empty registry by
`can_spawn`-gated `add_session` calls in which two Sessions share the
session identifier `"agent-t1"` — "at most one Session per session
identifier" fails on the code. -/
theorem session_id_unique_counterexample :
    ReachGated stDup ∧ ¬ (stDup.sessions.map Session.session_id).Nodup := by
  constructor
  · exact ReachGated.add _ "t1" "coder" 2 0
      (ReachGated.add _ "t1" "coder" 2 0 ReachGated.init (by decide)) (by decide)
  · decide

/-- C5 amended: under `can_spawn` gating the session count never exceeds
`max_concurrent`; and if additionally no `add_session` call ever reuses a
currently-active task identifier, session identifiers also stay pairwise
distinct. -/
theorem registry_invariants :
    (∀ st : OrchState, ReachGated st →
        (st.sessions.length : Int) ≤ st.max_concurrent)
    ∧ (∀ st : OrchState, ReachGatedFresh st →
        (st.sessions.map Session.session_id).Nodup
        ∧ (st.sessions.length : Int) ≤ st.max_concurrent) := by
  constructor
  · intro st h
    induction h with
    | init => decide
    | add st tid ag p now _ hcan ih =>
      have hl : (st.sessions.length : Int) < st.max_concurrent := by
        simpa [can_spawn] using hcan
      simp only [add_session, List.length_append, List.length_cons, List.length_nil]
      push_cast
      omega
    | remove st sid _ ih =>
      have h := remove_session_shrinks st sid
      rw [h.2.1]
      calc ((remove_session st sid).snd.sessions.length : Int)
          ≤ (st.sessions.length : Int) := by exact_mod_cast h.1
        _ ≤ st.max_concurrent := ih
    | cleanup st sid _ ih =>
      have h := remove_session_shrinks st sid
      simp only [cleanup_session]
      rw [h.2.1]
      calc ((remove_session st sid).snd.sessions.length : Int)
          ≤ (st.sessions.length : Int) := by exact_mod_cast h.1
        _ ≤ st.max_concurrent := ih
  · intro st h
    induction h with
    | init => exact ⟨List.nodup_nil, by decide⟩
    | add st tid ag p now _ hcan hfresh ih =>
      have hl : (st.sessions.length : Int) < st.max_concurrent := by
        simpa [can_spawn] using hcan
      constructor
      · simp only [add_session, List.map_append, List.map_cons, List.map_nil]
        rw [List.nodup_append]
        refine ⟨ih.1, List.nodup_singleton _, ?_⟩
        intro a ha hb
        rw [List.mem_singleton] at hb
        exact hfresh (hb ▸ ha)
      · simp only [add_session, List.length_append, List.length_cons, List.length_nil]
        push_cast
        omega
    | remove st sid _ ih =>
      have h := remove_session_shrinks st sid
      refine ⟨ih.1.sublist h.2.2, ?_⟩
      rw [h.2.1]
      calc ((remove_session st sid).snd.sessions.length : Int)
          ≤ (st.sessions.length : Int) := by exact_mod_cast h.1
        _ ≤ st.max_concurrent := ih.2
    | cleanup st sid _ ih =>
      have h := remove_session_shrinks st sid
      simp only [cleanup_session]
      refine ⟨ih.1.sublist h.2.2, ?_⟩
      rw [h.2.1]
      calc ((remove_session st sid).snd.sessions.length : Int)
          ≤ (st.sessions.length : Int) := by exact_mod_cast h.1
        _ ≤ st.max_concurrent := ih.2

theorem registry_invariants_witness :
    ((initialState.sessions.length : Int) ≤ initialState.max_concurrent)
    ∧ ((initialState.sessions.map Session.session_id).Nodup
        ∧ (initialState.sessions.length : Int) ≤ initialState.max_concurrent) :=
  ⟨registry_invariants.1 initialState ReachGated.init,
    registry_invariants.2 initialState ReachGatedFresh.init⟩

/-! ### Lost update across processes (claim C1) -/

/-- A task persisted in the shared file before the interleaving starts. -/
def c1Task0 : QueuedTask :=
  ⟨"t0", "coder", 2, "2025-01-01T10:00:00", ""⟩

/-- The shared state file both processes start from: one queued task. -/
def c1File0 : Option OrchState :=
  some ⟨[], [c1Task0], 5, 10⟩

/-- Process P1: constructed from the shared file, then `queue_task "t1"`
(which saves). -/
def c1P1 : QueuedTask × OrchState × Option OrchState :=
  proc_queue_task (orch_init c1File0).fst (orch_init c1File0).snd
    "t1" "coder" 1 "2025-01-01T10:00:05" ""

/-- Process P2: also constructed from the shared file (before P1 saved),
then `dequeue_next` against the file P1 left behind. -/
def c1P2 : Option QueuedTask × OrchState × Option OrchState :=
  proc_dequeue_next (orch_init c1File0).fst c1P1.snd.snd

/-- C1 fails on the code: `_load_state` runs only in `__init__`, each
mutating method computes on the in-memory state and `_save_state` blindly
overwrites the file, and no lock (or any other mutual-exclusion mechanism)
exists anywhere in the code.  Two processes that both load, after which P1
runs `queue_task "t1"` (its save writes a file containing t1) and the stale
P2 runs `dequeue_next` (its save overwrites that file), end with a persisted
state from which t1 has vanished: a lost update. -/
theorem lost_update_interleaving :
    c1P1.snd.snd =
      some ⟨[], [⟨"t1", "coder", 1, "2025-01-01T10:00:05", ""⟩, c1Task0], 5, 10⟩
    ∧ c1P2.fst = some c1Task0
    ∧ c1P2.snd.snd = some ⟨[], [], 5, 10⟩ := by
  decide

/-! ### Write mechanism (claim C2) -/

/-- The path of the shared state document. -/
def c2Path : String := "sessions/active.json"

/-- C2 fails on the code: `_save_state` and `mark_read` write with
`open(path, "w")` followed by `json.dump` — in-place truncation, not
write-to-temporary-then-rename.  Completing both steps stores the new
document, but a write failing between the truncation and the dump leaves an
empty file: the previous valid document is destroyed and a reader observes a
partially-written (empty) document.  The atomic-replace discipline the claim
describes, interrupted at the same point, would have left the old document
in place. -/
theorem truncating_write_not_atomic :
    fsGet (applyOps [(c2Path, "OLD")] (pyTruncatingWrite c2Path "NEW")) c2Path = some "NEW"
    ∧ fsGet (applyOps [(c2Path, "OLD")] ((pyTruncatingWrite c2Path "NEW").take 1)) c2Path
        = some ""
    ∧ (some "" : Option String) ≠ some "OLD"
    ∧ (some "" : Option String) ≠ some "NEW"
    ∧ fsGet (applyOps [(c2Path, "OLD")]
          ((atomicReplaceWrite c2Path "sessions/active.json.tmp" "NEW").take 1)) c2Path
        = some "OLD" := by
  decide

/-! ### Mailbox lemmas -/

theorem find?_key_append {α : Type} {l1 l2 : List (String × α)} {k : String}
    (h : l1.any (fun e => e.fst == k) = false) :
    (l1 ++ l2).find? (fun e => e.fst == k) = l2.find? (fun e => e.fst == k) := by
  induction l1 with
  | nil => simp
  | cons e es ih =>
    simp only [List.any_cons, Bool.or_eq_false_iff] at h
    rw [List.cons_append, List.find?_cons_of_neg, ih h.2]
    simp [h.1]

theorem find?_key_map {α : Type} (f : String × α → String × α)
    (hf : ∀ e, (f e).fst = e.fst) (l : List (String × α)) (k : String) :
    (l.map f).find? (fun e => e.fst == k) =
      (l.find? (fun e => e.fst == k)).map f := by
  induction l with
  | nil => simp
  | cons e es ih =>
    by_cases hk : (e.fst == k) = true
    · have hfk : ((f e).fst == k) = true := by rw [hf]; exact hk
      rw [List.map_cons,
        List.find?_cons_of_pos (p := fun x : String × α => x.fst == k) _ hfk,
        List.find?_cons_of_pos (p := fun x : String × α => x.fst == k) _ hk]
      rfl
    · have hfk : ¬ ((f e).fst == k) = true := by rw [hf]; simp [hk]
      rw [List.map_cons,
        List.find?_cons_of_neg (p := fun x : String × α => x.fst == k) _ hfk,
        List.find?_cons_of_neg (p := fun x : String × α => x.fst == k) _ (by simp [hk]),
        ih]

theorem any_key_map {α : Type} (f : String × α → String × α)
    (hf : ∀ e, (f e).fst = e.fst) (l : List (String × α)) (k : String) :
    (l.map f).any (fun e => e.fst == k) = l.any (fun e => e.fst == k) := by
  rw [List.any_map]
  congr 1
  funext e
  simp [Function.comp, hf]

theorem any_of_find? {α : Type} {l : List (String × α)}
    {p : String × α → Bool} {x : String × α} (h : l.find? p = some x) :
    l.any p = true :=
  List.any_eq_true.mpr ⟨x, List.mem_of_find?_eq_some h, List.find?_some h⟩

theorem hasDir_ensureDir (dirs : List (String × Folder)) (a : String) :
    hasDir (ensureDir dirs a) a = true := by
  rw [ensureDir]
  by_cases h : hasDir dirs a = true
  · rw [if_pos h]
    exact h
  · rw [if_neg h]
    simp [hasDir, List.any_append]

theorem ensureDir_of_has {dirs : List (String × Folder)} {a : String}
    (h : hasDir dirs a = true) : ensureDir dirs a = dirs := by
  rw [ensureDir, if_pos h]

theorem hasDir_updateDir (dirs : List (String × Folder)) (a b : String)
    (g : Folder → Folder) : hasDir (updateDir dirs a g) b = hasDir dirs b := by
  rw [updateDir, hasDir, hasDir, any_key_map]
  intro e
  by_cases h : (e.fst == a) = true <;> simp [h]

theorem getDir_updateDir {dirs : List (String × Folder)} {a : String}
    (g : Folder → Folder) (h : hasDir dirs a = true) :
    getDir (updateDir dirs a g) a = g (getDir dirs a) := by
  have hmap := find?_key_map
    (fun e => if e.fst == a then (e.fst, g e.snd) else e)
    (fun e => by by_cases hc : (e.fst == a) = true <;> simp [hc]) dirs a
  cases hy : dirs.find? (fun e => e.fst == a) with
  | none =>
    exfalso
    rw [hasDir] at h
    obtain ⟨x, hx, hpx⟩ := List.any_eq_true.mp h
    exact (List.find?_eq_none.mp hy x hx) hpx
  | some y =>
    have hpy := List.find?_some hy
    have heq : y.fst = a := by simpa using hpy
    rw [getDir, getDir, updateDir, hmap, hy]
    simp [heq]

theorem updateDir_append (l1 l2 : List (String × Folder)) (k : String)
    (g : Folder → Folder) :
    updateDir (l1 ++ l2) k g = updateDir l1 k g ++ updateDir l2 k g :=
  List.map_append _ _ _

theorem updateDir_of_not_has {l : List (String × Folder)} {k : String}
    (g : Folder → Folder) (h : hasDir l k = false) : updateDir l k g = l := by
  induction l with
  | nil => rfl
  | cons e es ih =>
    rw [hasDir, List.any_cons, Bool.or_eq_false_iff] at h
    rw [updateDir, List.map_cons, if_neg (by simp [h.1])]
    have := ih (h := by rw [hasDir]; exact h.2)
    rw [updateDir] at this
    rw [this]

theorem mem_fileInsert {e a : String × Message} {l : Folder} :
    a ∈ fileInsert e l ↔ a = e ∨ a ∈ l := by
  induction l with
  | nil => simp [fileInsert]
  | cons f fs ih =>
    rw [fileInsert]
    split
    · simp only [List.mem_cons, ih]
      tauto
    · simp only [List.mem_cons]

theorem mem_sortFiles {a : String × Message} {l : Folder} :
    a ∈ sortFiles l ↔ a ∈ l := by
  induction l with
  | nil => simp [sortFiles]
  | cons e es ih =>
    rw [sortFiles, mem_fileInsert, ih, List.mem_cons]

/-- C7: sending with `to_agent = "all"` in a store whose inbox directories
are exactly {A, B} writes exactly one copy of the message into A's inbox and
one into B's inbox, plus one record into the sender's outbox; every written
copy is the same record, so all share the message identifier
`"msg-" ++ fresh` and the timestamp `now`, and all carry `read = false`. -/
theorem broadcast_writes_each_inbox_once (A B S mt subj cont : String)
    (rpl : Option String) (fa fb boxS : Folder) (fresh now : String)
    (hfa : hasFile fa (("msg-" ++ fresh) ++ ".json") = false)
    (hfb : hasFile fb (("msg-" ++ fresh) ++ ".json") = false)
    (hbox : hasFile boxS (("msg-" ++ fresh) ++ ".json") = false) :
    send ⟨[(A, fa), (B, fb)], [(S, boxS)]⟩ S "all" mt subj cont rpl fresh now =
      (⟨"msg-" ++ fresh, S, "all", mt, subj, cont, now, rpl, false⟩,
        ⟨[(A, fa ++ [(("msg-" ++ fresh) ++ ".json",
              ⟨"msg-" ++ fresh, S, "all", mt, subj, cont, now, rpl, false⟩)]),
            (B, fb ++ [(("msg-" ++ fresh) ++ ".json",
              ⟨"msg-" ++ fresh, S, "all", mt, subj, cont, now, rpl, false⟩)])],
          [(S, boxS ++ [(("msg-" ++ fresh) ++ ".json",
              ⟨"msg-" ++ fresh, S, "all", mt, subj, cont, now, rpl, false⟩)])]⟩) := by
  simp only [hasFile] at hfa hfb hbox
  simp [send, writeMessage, msgFileName, ensureDir, hasDir, updateDir, hasFile,
    hfa, hfb, hbox]

theorem broadcast_writes_each_inbox_once_witness :
    send ⟨[("alice", []), ("bob", [])], [("sender", [])]⟩ "sender" "all"
        "status" "hello" "body" none "abc12345" "2025-01-01T10:00:00" =
      (⟨"msg-" ++ "abc12345", "sender", "all", "status", "hello", "body",
          "2025-01-01T10:00:00", none, false⟩,
        ⟨[("alice", [] ++ [(("msg-" ++ "abc12345") ++ ".json",
              ⟨"msg-" ++ "abc12345", "sender", "all", "status", "hello", "body",
                "2025-01-01T10:00:00", none, false⟩)]),
            ("bob", [] ++ [(("msg-" ++ "abc12345") ++ ".json",
              ⟨"msg-" ++ "abc12345", "sender", "all", "status", "hello", "body",
                "2025-01-01T10:00:00", none, false⟩)])],
          [("sender", [] ++ [(("msg-" ++ "abc12345") ++ ".json",
              ⟨"msg-" ++ "abc12345", "sender", "all", "status", "hello", "body",
                "2025-01-01T10:00:00", none, false⟩)])]⟩) :=
  broadcast_writes_each_inbox_once "alice" "bob" "sender" "status" "hello" "body"
    none [] [] [] "abc12345" "2025-01-01T10:00:00" rfl rfl rfl

/-- C10: a broadcast `send(S, "all", ...)` in a state where S's own inbox
directory already exists also writes a copy into S's own inbox, and a
subsequent `receive(S, unread_only := true)` returns that broadcast (whose
read flag is false). -/
theorem self_broadcast_in_own_inbox (S mt subj cont : String) (rpl : Option String)
    (store : MsgStore) (fs : Folder) (fresh now : String)
    (hS : store.inboxes.find? (fun e => e.fst == S) = some (S, fs))
    (hfresh : hasFile fs (("msg-" ++ fresh) ++ ".json") = false) :
    ((("msg-" ++ fresh) ++ ".json",
        (send store S "all" mt subj cont rpl fresh now).fst) ∈
      getDir (send store S "all" mt subj cont rpl fresh now).snd.inboxes S)
    ∧ (send store S "all" mt subj cont rpl fresh now).fst ∈
        (receive (send store S "all" mt subj cont rpl fresh now).snd S true).fst
    ∧ (send store S "all" mt subj cont rpl fresh now).fst.read = false := by
  have hfst : (send store S "all" mt subj cont rpl fresh now).fst =
      ⟨"msg-" ++ fresh, S, "all", mt, subj, cont, now, rpl, false⟩ := rfl
  have hsnd : (send store S "all" mt subj cont rpl fresh now).snd.inboxes =
      store.inboxes.map (fun e => (e.fst, writeMessage e.snd
        ⟨"msg-" ++ fresh, S, "all", mt, subj, cont, now, rpl, false⟩)) := by
    simp [send]
  have hfind : (store.inboxes.map (fun e => (e.fst, writeMessage e.snd
        ⟨"msg-" ++ fresh, S, "all", mt, subj, cont, now, rpl, false⟩))).find?
        (fun e => e.fst == S) =
      some (S, writeMessage fs
        ⟨"msg-" ++ fresh, S, "all", mt, subj, cont, now, rpl, false⟩) := by
    rw [find?_key_map (fun e => (e.fst, writeMessage e.snd
        ⟨"msg-" ++ fresh, S, "all", mt, subj, cont, now, rpl, false⟩))
      (fun e => rfl) store.inboxes S, hS]
    rfl
  have hwm : writeMessage fs
        ⟨"msg-" ++ fresh, S, "all", mt, subj, cont, now, rpl, false⟩ =
      fs ++ [(("msg-" ++ fresh) ++ ".json",
        ⟨"msg-" ++ fresh, S, "all", mt, subj, cont, now, rpl, false⟩)] := by
    rw [writeMessage, if_neg (by simp [msgFileName, hfresh])]
    rfl
  have hget : getDir (send store S "all" mt subj cont rpl fresh now).snd.inboxes S =
      fs ++ [(("msg-" ++ fresh) ++ ".json",
        ⟨"msg-" ++ fresh, S, "all", mt, subj, cont, now, rpl, false⟩)] := by
    rw [hsnd, getDir, hfind]
    exact hwm
  refine ⟨?_, ?_, rfl⟩
  · rw [hget, hfst]
    simp
  · have hdir : hasDir (send store S "all" mt subj cont rpl fresh now).snd.inboxes S
        = true := by
      rw [hasDir, hsnd]
      exact any_of_find? hfind
    rw [receive]
    simp only [ensureDir_of_has hdir]
    rw [hget, hfst]
    apply List.mem_map.mpr
    refine ⟨(("msg-" ++ fresh) ++ ".json",
      ⟨"msg-" ++ fresh, S, "all", mt, subj, cont, now, rpl, false⟩), ?_, rfl⟩
    apply List.mem_filter.mpr
    refine ⟨mem_sortFiles.mpr (by simp), by simp⟩

/-- A one-agent store: the agent "sender" has an (empty) inbox directory. -/
def selfStore : MsgStore := ⟨[("sender", [])], []⟩

theorem self_broadcast_in_own_inbox_witness :
    ((("msg-" ++ "abc12345") ++ ".json",
        (send selfStore "sender" "all" "status" "hello" "body" none "abc12345"
          "2025-01-01T10:00:00").fst) ∈
      getDir (send selfStore "sender" "all" "status" "hello" "body" none "abc12345"
          "2025-01-01T10:00:00").snd.inboxes "sender")
    ∧ (send selfStore "sender" "all" "status" "hello" "body" none "abc12345"
          "2025-01-01T10:00:00").fst ∈
        (receive (send selfStore "sender" "all" "status" "hello" "body" none
            "abc12345" "2025-01-01T10:00:00").snd "sender" true).fst
    ∧ (send selfStore "sender" "all" "status" "hello" "body" none "abc12345"
          "2025-01-01T10:00:00").fst.read = false :=
  self_broadcast_in_own_inbox "sender" "status" "hello" "body" none selfStore []
    "abc12345" "2025-01-01T10:00:00" rfl rfl

theorem markEntry_fst (n : String) (e : String × Message) :
    (markEntry n e).fst = e.fst := by
  rw [markEntry]
  split <;> rfl

theorem mark_read_true_spec (store : MsgStore) (agent mid : String)
    (h : hasFile (getDir (ensureDir store.inboxes agent) agent) (mid ++ ".json")
      = true) :
    mark_read store agent mid =
      (true,
        ⟨updateDir (ensureDir store.inboxes agent) agent
            (fun f => f.map (markEntry (mid ++ ".json"))),
          store.outboxes⟩) := by
  simp [mark_read, h]

/-- C8: `mark_read` is idempotent — when the inbox file exists, two
consecutive calls both return true and the file ends with `read = true`,
and when the file does not exist the call returns false; and the round trip
send → receive (unread only) → mark_read → receive (unread only) yields
exactly the sent message from the first receive and nothing from the
second. -/
theorem mark_read_idempotent_roundtrip :
    (∀ (store : MsgStore) (agent mid : String),
        hasFile (getDir (ensureDir store.inboxes agent) agent) (mid ++ ".json")
            = true →
          (mark_read store agent mid).fst = true
          ∧ (mark_read (mark_read store agent mid).snd agent mid).fst = true
          ∧ (getDir (mark_read (mark_read store agent mid).snd agent mid).snd.inboxes
                agent).all
              (fun e => !(e.fst == mid ++ ".json") || e.snd.read) = true)
    ∧ (∀ (store : MsgStore) (agent mid : String),
        hasFile (getDir (ensureDir store.inboxes agent) agent) (mid ++ ".json")
            = false →
          (mark_read store agent mid).fst = false)
    ∧ (∀ (S B mt subj cont : String) (rpl : Option String) (store : MsgStore)
          (fresh now : String),
        (B == "all") = false →
        hasDir store.inboxes B = false →
          (receive (send store S B mt subj cont rpl fresh now).snd B true).fst =
              [(send store S B mt subj cont rpl fresh now).fst]
          ∧ (receive (mark_read
                  (receive (send store S B mt subj cont rpl fresh now).snd B true).snd
                  B ("msg-" ++ fresh)).snd B true).fst = []) := by
  refine ⟨?_, ?_, ?_⟩
  · intro store agent mid h
    have hs1 := mark_read_true_spec store agent mid h
    have hdir1 : hasDir (mark_read store agent mid).snd.inboxes agent = true := by
      rw [hs1, hasDir_updateDir]
      exact hasDir_ensureDir _ _
    have hget1 : getDir (mark_read store agent mid).snd.inboxes agent =
        (getDir (ensureDir store.inboxes agent) agent).map
          (markEntry (mid ++ ".json")) := by
      rw [hs1]
      exact getDir_updateDir _ (hasDir_ensureDir _ _)
    have hfile1 : hasFile (getDir (mark_read store agent mid).snd.inboxes agent)
        (mid ++ ".json") = true := by
      rw [hget1, hasFile, any_key_map _ (markEntry_fst _)]
      exact h
    have hens : ensureDir (mark_read store agent mid).snd.inboxes agent =
        (mark_read store agent mid).snd.inboxes := ensureDir_of_has hdir1
    have h2 : hasFile (getDir (ensureDir (mark_read store agent mid).snd.inboxes
        agent) agent) (mid ++ ".json") = true := by
      rw [hens]
      exact hfile1
    have hs2 := mark_read_true_spec (mark_read store agent mid).snd agent mid h2
    refine ⟨by rw [hs1], by rw [hs2], ?_⟩
    have hget2 : getDir (mark_read (mark_read store agent mid).snd agent
          mid).snd.inboxes agent =
        ((getDir (ensureDir store.inboxes agent) agent).map
            (markEntry (mid ++ ".json"))).map (markEntry (mid ++ ".json")) := by
      rw [hs2, hens, getDir_updateDir _ hdir1, hget1]
    rw [hget2]
    apply List.all_eq_true.mpr
    intro e he
    rw [List.map_map] at he
    obtain ⟨e0, he0, rfl⟩ := List.mem_map.mp he
    by_cases h0 : (e0.fst == mid ++ ".json") = true
    · simp [markEntry, h0, setRead]
    · simp [Function.comp, markEntry, h0]
  · intro store agent mid h
    simp [mark_read, h]
  · intro S B mt subj cont rpl store fresh now hB hNo
    have hNoAny : store.inboxes.any (fun e => e.fst == B) = false := hNo
    have hsendinb : (send store S B mt subj cont rpl fresh now).snd.inboxes =
        store.inboxes ++ [(B, [(("msg-" ++ fresh) ++ ".json",
          ⟨"msg-" ++ fresh, S, B, mt, subj, cont, now, rpl, false⟩)])] := by
      simp only [send, hB, Bool.false_eq_true, if_false]
      rw [ensureDir, if_neg (by simp [hNo]), updateDir_append,
        updateDir_of_not_has _ hNo]
      simp [updateDir, writeMessage, msgFileName, hasFile]
    have hdirB : hasDir (send store S B mt subj cont rpl fresh now).snd.inboxes B
        = true := by
      rw [hsendinb, hasDir, List.any_append]
      simp
    have hfold : getDir (send store S B mt subj cont rpl fresh now).snd.inboxes B =
        [(("msg-" ++ fresh) ++ ".json",
          ⟨"msg-" ++ fresh, S, B, mt, subj, cont, now, rpl, false⟩)] := by
      rw [hsendinb, getDir, find?_key_append hNoAny]
      simp
    have hrec1 : (receive (send store S B mt subj cont rpl fresh now).snd B
        true).fst = [(send store S B mt subj cont rpl fresh now).fst] := by
      rw [receive]
      simp only [ensureDir_of_has hdirB]
      rw [hfold]
      simp [sortFiles, fileInsert]
      rfl
    have hrec1inb : (receive (send store S B mt subj cont rpl fresh now).snd B
          true).snd.inboxes =
        (send store S B mt subj cont rpl fresh now).snd.inboxes := by
      rw [receive]
      simp only [ensureDir_of_has hdirB]
    refine ⟨hrec1, ?_⟩
    have hfold2 : getDir (ensureDir (receive (send store S B mt subj cont rpl
          fresh now).snd B true).snd.inboxes B) B =
        [(("msg-" ++ fresh) ++ ".json",
          ⟨"msg-" ++ fresh, S, B, mt, subj, cont, now, rpl, false⟩)] := by
      rw [hrec1inb, ensureDir_of_has hdirB, hfold]
    have hfile2 : hasFile (getDir (ensureDir (receive (send store S B mt subj cont
          rpl fresh now).snd B true).snd.inboxes B) B)
        (("msg-" ++ fresh) ++ ".json") = true := by
      rw [hfold2]
      simp [hasFile]
    have hs3 := mark_read_true_spec
      (receive (send store S B mt subj cont rpl fresh now).snd B true).snd B
      ("msg-" ++ fresh) hfile2
    have hdir3 : hasDir (mark_read (receive (send store S B mt subj cont rpl fresh
          now).snd B true).snd B ("msg-" ++ fresh)).snd.inboxes B = true := by
      rw [hs3, hasDir_updateDir]
      exact hasDir_ensureDir _ _
    have hget3 : getDir (ensureDir (mark_read (receive (send store S B mt subj cont
          rpl fresh now).snd B true).snd B ("msg-" ++ fresh)).snd.inboxes B) B =
        [(("msg-" ++ fresh) ++ ".json",
          setRead ⟨"msg-" ++ fresh, S, B, mt, subj, cont, now, rpl, false⟩)] := by
      rw [ensureDir_of_has hdir3, hs3, getDir_updateDir _ (hasDir_ensureDir _ _),
        hrec1inb, ensureDir_of_has hdirB, hfold]
      simp [markEntry]
    rw [receive]
    simp only [hget3]
    simp [sortFiles, fileInsert, setRead]

/-- A store whose agent "a" has one unread message file `msg-1.json`. -/
def oneMsgStore : MsgStore :=
  ⟨[("a", [("msg-1.json",
      ⟨"msg-1", "s", "a", "request", "Help", "fix bug", "2025-01-01T10:00:00",
        none, false⟩)])], []⟩

theorem mark_read_idempotent_roundtrip_witness :
    ((mark_read oneMsgStore "a" "msg-1").fst = true
      ∧ (mark_read (mark_read oneMsgStore "a" "msg-1").snd "a" "msg-1").fst = true
      ∧ (getDir (mark_read (mark_read oneMsgStore "a" "msg-1").snd "a"
            "msg-1").snd.inboxes "a").all
          (fun e => !(e.fst == "msg-1" ++ ".json") || e.snd.read) = true)
    ∧ ((mark_read oneMsgStore "a" "msg-9").fst = false)
    ∧ ((receive (send ⟨[], []⟩ "agent-1" "agent-2" "request" "Help" "fix bug" none
            "f1" "2025-01-01T10:00:00").snd "agent-2" true).fst =
          [(send ⟨[], []⟩ "agent-1" "agent-2" "request" "Help" "fix bug" none
            "f1" "2025-01-01T10:00:00").fst]
        ∧ (receive (mark_read
              (receive (send ⟨[], []⟩ "agent-1" "agent-2" "request" "Help"
                  "fix bug" none "f1" "2025-01-01T10:00:00").snd "agent-2"
                true).snd "agent-2" ("msg-" ++ "f1")).snd "agent-2" true).fst
          = []) :=
  ⟨mark_read_idempotent_roundtrip.1 oneMsgStore "a" "msg-1" (by decide),
    mark_read_idempotent_roundtrip.2.1 oneMsgStore "a" "msg-9" (by decide),
    mark_read_idempotent_roundtrip.2.2 "agent-1" "agent-2" "request" "Help"
      "fix bug" none ⟨[], []⟩ "f1" "2025-01-01T10:00:00" rfl rfl⟩

end SuperDispatch
